import Mathlib

/-
Verification of the role-partitioned retrieval-and-answer core of the
HR-RAG-BOT repository.

The embedding follows the source files:
  SERVER/docs/vectorstore.py  (ingestion pipeline, chunk constants 500/100)
  SERVER/docs/routes.py       (upload and delete HTTP handlers)
  SERVER/chat/chat_query.py   (role-filtered answer synthesis)

External capabilities (Pinecone index, OpenAI embeddings, the LLM, and the
langchain text splitter) are not part of the repository; they are modelled
from the specification where noted, and otherwise injected as parameters so
that theorems quantify over their behaviour.
-/

namespace HRRag

/-- Embedding vectors, abstracted: the embedding provider is external, so the
numeric content of a vector is irrelevant to the claims; only identity
matters. -/
abbrev Emb := List Int

/-- Metadata attached to each upserted vector, as built in
load_vectorstore_async (vectorstore.py lines 118-128). -/
structure Meta where
  text : String
  source : String
  doc_id : String
  role : String
  page : Option Nat
  start_offset : Option Nat
deriving Repr, DecidableEq

/-- One stored vector: the (id, embedding, metadata) triple that
vectorstore.py line 138 zips together. -/
structure Vec where
  id : String
  values : Emb
  metadata : Meta
deriving Repr, DecidableEq

/-- Modelled from the spec: the Pinecone serverless index, missing from the
repository sources. Partitions (Pinecone namespaces) are keyed by strings;
each namespace holds its own list of vectors, disjoint from every other
namespace. -/
def NamespacedIndex := String → List Vec

/-- The empty index: every namespace empty. -/
def emptyIndex : NamespacedIndex := fun _ => []

/-- Modelled from the spec: upsert of a single vector is idempotent per id;
re-upserting an existing id overwrites, otherwise the vector is appended. -/
def upsertOne (l : List Vec) (v : Vec) : List Vec :=
  if l.any (fun w => w.id == v.id) then
    l.map (fun w => if w.id == v.id then v else w)
  else
    l ++ [v]

/-- Modelled from the spec: upsert of a list of vectors into one namespace;
all other namespaces are untouched. This is the semantics of
index.upsert(vectors=b, namespace=role) at vectorstore.py lines 149-152. -/
def upsertNS (idx : NamespacedIndex) (ns : String) (vs : List Vec) : NamespacedIndex :=
  fun n => if n = ns then vs.foldl upsertOne (idx n) else idx n

/-- Modelled from the spec: a similarity query scoped to one namespace
returns the top_k vectors of that namespace ranked by the (external)
scoring function, and never reads any other namespace. This is the
semantics of index.query(vector, top_k, namespace=user_role) at
chat_query.py lines 82-88. -/
def queryNS (score : Emb → Emb → Int) (idx : NamespacedIndex) (ns : String)
    (q : Emb) (k : Nat) : List Vec :=
  (List.insertionSort (fun a b => score q b.values ≤ score q a.values) (idx ns)).take k

/-- The structured result of answer_query (chat_query.py docstring:
dict with keys answer and sources). -/
structure QueryResult where
  answer : String
  sources : List String
deriving Repr, DecidableEq

/-- The fixed fallback answer of chat_query.py lines 94 and 113. -/
def fallbackAnswer : String :=
  "I\x27m sorry, I don\x27t have access to that information or it\x27s not covered in the available HR documents."

/-- The fixed generic failure answer of chat_query.py line 139. -/
def genericFailureAnswer : String :=
  "Sorry, something went wrong while processing your HR query. Please try again later."

/-- Python set.add on a list kept without duplicates. -/
def addSource (s : List String) (x : String) : List String :=
  if s.contains x then s else s ++ [x]

/-- Python str.strip on the character list: drop ASCII whitespace from
both ends. Defined structurally so that concrete inputs evaluate. -/
def stripChars (l : List Char) : List Char :=
  ((l.dropWhile Char.isWhitespace).reverse.dropWhile Char.isWhitespace).reverse

/-- Python str.strip as used at chat_query.py lines 107-108 and 125. -/
def pyStrip (s : String) : String := String.mk (stripChars s.data)

/-- One iteration of the loop of chat_query.py lines 102-109: a match whose
text is nonempty after trimming contributes its trimmed text to the
context parts and its source name to the source set. -/
def extractStep (acc : List String × List String) (m : Vec) : List String × List String :=
  if pyStrip m.metadata.text ≠ "" then
    (acc.1 ++ [pyStrip m.metadata.text], addSource acc.2 m.metadata.source)
  else acc

/-- The loop of chat_query.py lines 102-109: walk the matches, keep the
trimmed text of every match whose text is nonempty after trimming, and
collect the set of their source names. Returns (context_parts, sources). -/
def extractContext (ms : List Vec) : List String × List String :=
  ms.foldl extractStep ([], [])

/-- The body of the try block of answer_query (chat_query.py lines 77-134),
with the three external calls injected: embed (OpenAI embed_query), iq
(the Pinecone query returning the matches list), llm (the rag_chain
invocation returning the response content). An .error anywhere models a
raised exception. -/
def answerQueryEx (embed : String → Except String Emb)
    (iq : Emb → String → Except String (List Vec))
    (llm : String → String → Except String String)
    (query : String) (user_role : String) : Except String QueryResult := do
  let embedding ← embed query
  let ms ← iq embedding user_role
  if ms.isEmpty then
    return ⟨fallbackAnswer, []⟩
  let parts_sources := extractContext ms
  if parts_sources.1.isEmpty then
    return ⟨fallbackAnswer, []⟩
  let context := String.intercalate "\n\n" parts_sources.1
  let content ← llm query context
  let final0 := pyStrip content
  let sorted_sources := List.insertionSort (fun a b => a ≤ b) parts_sources.2
  let final_answer :=
    if parts_sources.2.isEmpty then final0
    else final0 ++ "\n\n**Sources:** " ++ String.intercalate ", " sorted_sources
  return ⟨final_answer, sorted_sources⟩

/-- answer_query (chat_query.py lines 65-141): the try body wrapped in the
except handler that converts any raised error into the fixed generic
failure answer with empty sources. -/
def answer_query (embed : String → Except String Emb)
    (iq : Emb → String → Except String (List Vec))
    (llm : String → String → Except String String)
    (query : String) (user_role : String) : QueryResult :=
  match answerQueryEx embed iq llm query user_role with
  | .ok r => r
  | .error _ => ⟨genericFailureAnswer, []⟩

/-- answer_query wired to the modelled index: the index query step is
queryNS with top_k = 5 against the namespace named by the caller role
(chat_query.py lines 82-88). -/
def askWithIndex (score : Emb → Emb → Int) (idx : NamespacedIndex)
    (embed : String → Except String Emb)
    (llm : String → String → Except String String)
    (query : String) (user_role : String) : QueryResult :=
  answer_query embed (fun e ns => .ok (queryNS score idx ns e 5)) llm query user_role

/-- Modelled from the spec: the text splitter used at vectorstore.py lines
100-106 is the external langchain splitter, configured there with
chunk_size 500 and chunk_overlap 100; the spec describes it as producing
passages of at most the maximum size with the configured overlap between
consecutive passages. Fuel-indexed worker so that the definition is
structurally recursive: each step emits the first 500 characters and
recurses on the text minus its first 400 characters. -/
def chunkCharsAux : Nat → List Char → List (List Char)
  | 0, s => if s.isEmpty then [] else [s]
  | fuel + 1, s =>
    if s.isEmpty then []
    else if s.length ≤ 500 then [s]
    else s.take 500 :: chunkCharsAux fuel (s.drop 400)

/-- Modelled from the spec: chunk a character list with maximum chunk size
500 and overlap 100. The fuel s.length always suffices. -/
def chunkChars (s : List Char) : List (List Char) :=
  chunkCharsAux s.length s

/-- Modelled from the spec: chunk a string, empty input giving no chunks
(the chunker must not produce empty passages). -/
def chunkStr (s : String) : List String :=
  (chunkChars s.data).map (fun cs => String.mk cs)

/-- One page of extracted document text, as produced by the external PDF
loader at vectorstore.py line 92. -/
structure Document where
  page_content : String
  page : Option Nat
deriving Repr, DecidableEq

/-- One chunk with the metadata the splitter attaches (page from the parent
document, start index from add_start_index=True at vectorstore.py 104). -/
structure Chunk where
  text : String
  page : Option Nat
  start_offset : Option Nat
deriving Repr, DecidableEq

/-- split_documents at vectorstore.py line 106: chunk every page and attach
page and start-offset metadata; consecutive chunks start 400 characters
apart (size 500 minus overlap 100). -/
def splitDocuments (documents : List Document) : List Chunk :=
  documents.flatMap (fun d =>
    (chunkStr d.page_content).enum.map (fun p => ⟨p.2, d.page, some (p.1 * 400)⟩))

/-- An uploaded file: a name and raw content. -/
structure UploadedFile where
  filename : String
  content : String
deriving Repr, DecidableEq

/-- The transient storage path UPLOAD_DIR / file.filename of
vectorstore.py line 85. -/
def savePath (f : UploadedFile) : String :=
  "./upload_docs/" ++ f.filename

/-- The external per-file capabilities consumed by the ingestion pipeline:
load is the PDF loader (may fail per file), embed is the embedding call
(may fail per text), upsertFails injects a Pinecone upsert failure for a
given batch. -/
structure FileOps where
  load : UploadedFile → Except String (List Document)
  embed : String → Except String Emb
  upsertFails : List Vec → Bool

/-- The mutable state the ingestion pipeline touches: the Pinecone index
and the set of files currently saved in transient storage. -/
structure IngestState where
  index : NamespacedIndex
  storage : List String

/-- Writing a file into transient storage (save_uploaded_file_async,
vectorstore.py lines 57-62): the path becomes present. -/
def insertPath (l : List String) (p : String) : List String :=
  if l.contains p then l else p :: l

/-- os.remove of a saved file: the path becomes absent. -/
def removePath (l : List String) (p : String) : List String :=
  l.filter (fun q => q != p)

/-- The embedding loop of vectorstore.py lines 132-135: embed every chunk
text in order; a failure on any text raises out of the loop. -/
def embedAll (embed : String → Except String Emb) : List String → Except String (List Emb)
  | [] => .ok []
  | t :: ts => do
    let e ← embed t
    let es ← embedAll embed ts
    .ok (e :: es)

/-- zip of ids, embeddings and metadatas (vectorstore.py line 138),
stopping at the shortest list as Python zip does. -/
def mkVectors : List String → List Emb → List Meta → List Vec
  | i :: is, e :: es, m :: ms => ⟨i, e, m⟩ :: mkVectors is es ms
  | _, _, _ => []

/-- The batched upsert loop of vectorstore.py lines 142-154: slices of 100
vectors are upserted in order into the role namespace; a failing batch
raises, keeping the batches already upserted (the Bool is false then).
Fuel-indexed to stay structurally recursive; fuel vs.length suffices. -/
def upsertBatchesAux (fails : List Vec → Bool) (ns : String) :
    Nat → NamespacedIndex → List Vec → NamespacedIndex × Bool
  | _, idx, [] => (idx, true)
  | 0, idx, _ => (idx, true)
  | fuel + 1, idx, v :: rest =>
    let batch := (v :: rest).take 100
    if fails batch then (idx, false)
    else upsertBatchesAux fails ns fuel (upsertNS idx ns batch) ((v :: rest).drop 100)

/-- The batched upsert loop with its fuel instantiated. -/
def upsertBatches (fails : List Vec → Bool) (ns : String) (idx : NamespacedIndex)
    (vs : List Vec) : NamespacedIndex × Bool :=
  upsertBatchesAux fails ns vs.length idx vs

/-- The body of the per-file loop of load_vectorstore_async
(vectorstore.py lines 83-165), including the per-file try/except: every
failure path and the success path both end with the transient file
removed, and a failure never escapes the loop body. -/
def processFile (ops : FileOps) (role doc_id : String) (st : IngestState)
    (f : UploadedFile) : IngestState :=
  let path := savePath f
  let storage1 := insertPath st.storage path
  match ops.load f with
  | .error _ => ⟨st.index, removePath storage1 path⟩
  | .ok documents =>
    if documents.isEmpty then ⟨st.index, removePath storage1 path⟩
    else
      let chunks := splitDocuments documents
      if chunks.isEmpty then ⟨st.index, removePath storage1 path⟩
      else
        let texts := chunks.map (fun c => c.text)
        let ids := (List.range chunks.length).map (fun i => doc_id ++ "_" ++ toString i)
        let metadatas := chunks.map (fun c =>
          { text := c.text, source := f.filename, doc_id := doc_id, role := role,
            page := c.page, start_offset := c.start_offset : Meta })
        match embedAll ops.embed texts with
        | .error _ => ⟨st.index, removePath storage1 path⟩
        | .ok embeddings =>
          let vectors := mkVectors ids embeddings metadatas
          let idxRes := upsertBatches ops.upsertFails role st.index vectors
          ⟨idxRes.1, removePath storage1 path⟩

/-- The valid role list of vectorstore.py line 76. -/
def valid_roles : List String :=
  ["Employee", "Team Lead", "HR Executive", "HR Manager"]

/-- load_vectorstore_async (vectorstore.py lines 65-167): reject an invalid
role by raising, otherwise fold the per-file loop body over the uploaded
files; per-file failures are swallowed by the loop body, so a valid role
always yields .ok. -/
def load_vectorstore_async (ops : FileOps) (role doc_id : String)
    (files : List UploadedFile) (st : IngestState) : Except String IngestState :=
  if valid_roles.contains role then
    .ok (files.foldl (processFile ops role doc_id) st)
  else
    .error ("Invalid role: " ++ role)

/-- An authenticated caller as supplied by get_current_user. -/
structure User where
  username : String
  role : String
deriving Repr, DecidableEq

/-- An HTTPException with status code and detail. -/
structure HttpError where
  code : Nat
  detail : String
deriving Repr, DecidableEq

/-- The success payload of upload_hr_documents (routes.py lines 46-54),
restricted to the fields the claims mention. -/
structure UploadResponse where
  message : String
  doc_id : String
  file_count : Nat
  access_role : String
deriving Repr, DecidableEq

/-- The valid role set of routes.py line 13 (same strings as
valid_roles). -/
def VALID_ROLES : List String :=
  ["Employee", "Team Lead", "HR Executive", "HR Manager"]

/-- Server-side state for the route handlers: the ingestion state plus the
supply of fresh uuids from which str(uuid.uuid4()) draws; generating a
batch id consumes the head of the supply. -/
structure ServerState where
  ingest : IngestState
  uuids : List String

/-- upload_hr_documents (routes.py lines 15-58): a caller whose role is not
HR Manager is rejected with 403 before the batch id is generated and
before any ingestion work; an invalid access role is rejected with 400;
otherwise a fresh doc_id is drawn and load_vectorstore_async runs. -/
def upload_hr_documents (ops : FileOps) (current_user : User)
    (files : List UploadedFile) (access_role : String) (st : ServerState) :
    Except HttpError UploadResponse × ServerState :=
  if current_user.role ≠ "HR Manager" then
    (.error ⟨403, "Only HR Manager can upload documents"⟩, st)
  else if ¬ VALID_ROLES.contains access_role then
    (.error ⟨400, "Invalid role"⟩, st)
  else
    let doc_id := st.uuids.headD "uuid-0"
    let st1 : ServerState := ⟨st.ingest, st.uuids.tail⟩
    match load_vectorstore_async ops access_role doc_id files st1.ingest with
    | .ok ing =>
      (.ok ⟨"Documents uploaded and indexed", doc_id, files.length, access_role⟩,
       ⟨ing, st1.uuids⟩)
    | .error e => (.error ⟨500, "Upload failed: " ++ e⟩, st1)

/-- delete_document_group (routes.py lines 61-80): a caller who is neither
HR Executive nor HR Manager is rejected with 403; otherwise the handler
logs and returns a success message. Its body performs no index operation,
so the index passes through unchanged. -/
def delete_document_group (current_user : User) (doc_id : String)
    (idx : NamespacedIndex) : Except HttpError String × NamespacedIndex :=
  if ¬ (["HR Executive", "HR Manager"].contains current_user.role) then
    (.error ⟨403, "Only HR Executive or HR Manager can delete documents"⟩, idx)
  else
    (.ok ("Document group " ++ doc_id ++ " deleted successfully"), idx)

/-- A degenerate scoring function used for concrete evaluations. -/
def scoreZero : Emb → Emb → Int := fun _ _ => 0

/-- Concrete per-file ops for evaluations: every file loads one short page,
embedding is the text length, upserts never fail. -/
def opsW : FileOps where
  load := fun f =>
    if f.filename = "a.pdf" then .ok [⟨"Alpha", some 0⟩] else .ok [⟨"Beta", some 0⟩]
  embed := fun t => .ok [Int.ofNat t.length]
  upsertFails := fun _ => false

/-- Concrete per-file ops whose loader always fails. -/
def opsFail : FileOps where
  load := fun _ => .error "unreadable document"
  embed := fun t => .ok [Int.ofNat t.length]
  upsertFails := fun _ => false

/-- A concrete uploaded file. -/
def fileA : UploadedFile := ⟨"a.pdf", "x"⟩

/-- A second concrete uploaded file. -/
def fileB : UploadedFile := ⟨"b.pdf", "y"⟩

/-- A concrete stored vector of ingestion batch B1 in the Employee
partition. -/
def vecB1 : Vec :=
  ⟨"B1_0", [5], ⟨"Annual leave is 20 days per year.", "handbook.pdf", "B1", "Employee", some 0, some 0⟩⟩

/-- A concrete index holding exactly vecB1 in the Employee partition. -/
def idxB1 : NamespacedIndex := upsertNS emptyIndex "Employee" [vecB1]

/-- Upserting into one namespace leaves every other namespace unchanged. -/
theorem upsertNS_apply_ne (idx : NamespacedIndex) (r1 r2 : String) (vs : List Vec)
    (h : r2 ≠ r1) : upsertNS idx r1 vs r2 = idx r2 := by
  simp [upsertNS, h]

/-- Every vector returned by a namespace query is stored in that
namespace. -/
theorem mem_of_mem_queryNS (score : Emb → Emb → Int) (idx : NamespacedIndex)
    (ns : String) (q : Emb) (k : Nat) (v : Vec)
    (h : v ∈ queryNS score idx ns q k) : v ∈ idx ns := by
  unfold queryNS at h
  exact (List.mem_insertionSort _).mp (List.mem_of_mem_take h)

/-- C1: partition isolation. For distinct roles r1 and r2 and any query
vector, an upsert into partition r1 leaves the result of any query against
partition r2 unchanged (so a passage upserted into r1 is never returned by
a query against r2 unless it was independently upserted into r2), and a
query against an empty partition returns the empty list rather than
falling back to another partition. -/
theorem C1_partition_isolation (score : Emb → Emb → Int) (idx : NamespacedIndex)
    (r1 r2 : String) (vs : List Vec) (q : Emb) (k : Nat) (hne : r1 ≠ r2) :
    queryNS score (upsertNS idx r1 vs) r2 q k = queryNS score idx r2 q k
    ∧ (idx r2 = [] → queryNS score idx r2 q k = []) := by
  constructor
  · unfold queryNS
    rw [upsertNS_apply_ne idx r1 r2 vs (Ne.symm hne)]
  · intro h
    unfold queryNS
    rw [h]
    simp [List.insertionSort]

/-- Witness for C1 at concrete input: upserting the batch into Employee
does not change a Team Lead query, and the empty Team Lead partition
yields the empty result. -/
theorem C1_partition_isolation_witness :
    queryNS scoreZero (upsertNS idxB1 "Employee" [vecB1]) "Team Lead" [0] 5
      = queryNS scoreZero idxB1 "Team Lead" [0] 5
    ∧ (idxB1 "Team Lead" = [] → queryNS scoreZero idxB1 "Team Lead" [0] 5 = []) :=
  C1_partition_isolation scoreZero idxB1 "Employee" "Team Lead" [vecB1] [0] 5 (by decide)

/-- C2: evidence of the code bug. The delete handler accepts the request
and reports success, but its body performs no index operation: the index
it returns is the unchanged input, and a subsequent query against the
Employee partition still returns the batch B1 passage. -/
theorem C2_delete_removes_nothing :
    delete_document_group ⟨"hrm", "HR Manager"⟩ "B1" idxB1
      = (.ok "Document group B1 deleted successfully", idxB1)
    ∧ queryNS scoreZero (delete_document_group ⟨"hrm", "HR Manager"⟩ "B1" idxB1).2
        "Employee" [0] 5 = [vecB1] :=
  ⟨rfl, rfl⟩

/-- C3: evidence of the code bug. Passage ids restart at sequence number 0
for every file of one ingestion call: after ingesting file a.pdf alone the
Employee partition holds the vector with id B_0 and source a.pdf, but
after ingesting a.pdf and b.pdf in one call with batch id B both files
receive id B_0, so the b.pdf chunk overwrites the a.pdf chunk and only one
vector remains. -/
theorem C3_ids_collide_across_files :
    ((processFile opsW "Employee" "B" ⟨emptyIndex, []⟩ fileA).index "Employee").map
        (fun v => (v.id, v.metadata.source)) = [("B_0", "a.pdf")]
    ∧ (load_vectorstore_async opsW "Employee" "B" [fileA, fileB] ⟨emptyIndex, []⟩).map
        (fun st => (st.index "Employee").map (fun v => (v.id, v.metadata.source)))
      = .ok [("B_0", "b.pdf")] :=
  ⟨rfl, rfl⟩

/-- C10: a caller whose role is not HR Manager is rejected with HTTP 403,
and the whole server state is returned unchanged: the uuid supply is not
consumed (no batch id is generated) and neither the index nor the
transient storage is touched. -/
theorem C10_upload_rejected_without_hr_manager (ops : FileOps) (user : User)
    (files : List UploadedFile) (access_role : String) (st : ServerState)
    (h : user.role ≠ "HR Manager") :
    upload_hr_documents ops user files access_role st
      = (.error ⟨403, "Only HR Manager can upload documents"⟩, st) := by
  simp [upload_hr_documents, h]

/-- When every match has empty trimmed text, the extraction loop leaves its
accumulator untouched. -/
theorem foldl_extractStep_id (ms : List Vec) :
    ∀ acc, (∀ m ∈ ms, pyStrip m.metadata.text = "") → ms.foldl extractStep acc = acc := by
  induction ms with
  | nil => intro acc _; rfl
  | cons m ms ih =>
    intro acc h
    rw [List.foldl_cons, show extractStep acc m = acc from by
      simp [extractStep, h m (List.mem_cons_self m ms)]]
    exact ih acc (fun v hv => h v (List.mem_cons_of_mem m hv))

/-- Membership in the source set after one set.add. -/
theorem mem_addSource (l : List String) (x s : String) :
    s ∈ addSource l x ↔ s ∈ l ∨ s = x := by
  unfold addSource
  by_cases hx : x ∈ l
  · rw [if_pos (List.elem_iff.mpr hx)]
    constructor
    · exact Or.inl
    · rintro (hs | rfl)
      · exact hs
      · exact hx
  · rw [if_neg (by simpa using hx)]
    simp

/-- One set.add preserves distinctness of the source set. -/
theorem nodup_addSource (l : List String) (x : String) (h : l.Nodup) :
    (addSource l x).Nodup := by
  unfold addSource
  by_cases hx : x ∈ l
  · rw [if_pos (List.elem_iff.mpr hx)]
    exact h
  · rw [if_neg (by simpa using hx)]
    simp [List.nodup_append, h, hx]

/-- The source set collected by the extraction loop holds exactly the
accumulator sources plus the sources of matches with nonempty trimmed
text. -/
theorem foldl_extractStep_sources_mem (ms : List Vec) :
    ∀ acc (s : String), s ∈ (ms.foldl extractStep acc).2
      ↔ s ∈ acc.2 ∨ ∃ v, v ∈ ms ∧ pyStrip v.metadata.text ≠ "" ∧ v.metadata.source = s := by
  induction ms with
  | nil => simp
  | cons m ms ih =>
    intro acc s
    rw [List.foldl_cons, ih]
    by_cases hm : pyStrip m.metadata.text = ""
    · have hstep : extractStep acc m = acc := by simp [extractStep, hm]
      rw [hstep]
      constructor
      · rintro (hs | ⟨v, hv, hvt, hvs⟩)
        · exact Or.inl hs
        · exact Or.inr ⟨v, List.mem_cons_of_mem m hv, hvt, hvs⟩
      · rintro (hs | ⟨v, hv, hvt, hvs⟩)
        · exact Or.inl hs
        · rcases List.mem_cons.mp hv with rfl | hv2
          · exact absurd hm hvt
          · exact Or.inr ⟨v, hv2, hvt, hvs⟩
    · have hstep : extractStep acc m
        = (acc.1 ++ [pyStrip m.metadata.text], addSource acc.2 m.metadata.source) := by
        simp [extractStep, hm]
      rw [hstep, show (acc.1 ++ [pyStrip m.metadata.text],
        addSource acc.2 m.metadata.source).2 = addSource acc.2 m.metadata.source from rfl,
        mem_addSource]
      constructor
      · rintro ((hs | rfl) | ⟨v, hv, hvt, hvs⟩)
        · exact Or.inl hs
        · exact Or.inr ⟨m, List.mem_cons_self m ms, hm, rfl⟩
        · exact Or.inr ⟨v, List.mem_cons_of_mem m hv, hvt, hvs⟩
      · rintro (hs | ⟨v, hv, hvt, hvs⟩)
        · exact Or.inl (Or.inl hs)
        · rcases List.mem_cons.mp hv with rfl | hv2
          · exact Or.inl (Or.inr hvs.symm)
          · exact Or.inr ⟨v, hv2, hvt, hvs⟩

/-- The extraction loop preserves distinctness of the source set. -/
theorem foldl_extractStep_sources_nodup (ms : List Vec) :
    ∀ acc, acc.2.Nodup → (ms.foldl extractStep acc).2.Nodup := by
  induction ms with
  | nil => intro acc h; exact h
  | cons m ms ih =>
    intro acc h
    rw [List.foldl_cons]
    apply ih
    unfold extractStep
    by_cases hm : pyStrip m.metadata.text = ""
    · simp [hm, h]
    · simpa [hm] using nodup_addSource acc.2 m.metadata.source h

/-- If the extraction loop produced context parts, it also produced at
least one source. -/
theorem extractContext_sources_ne_nil (ms : List Vec)
    (hp : (extractContext ms).1 ≠ []) : (extractContext ms).2 ≠ [] := by
  intro hs
  have hall : ∀ v ∈ ms, pyStrip v.metadata.text = "" := by
    intro v hv
    by_contra hvt
    have hmem : v.metadata.source ∈ (extractContext ms).2 :=
      (foldl_extractStep_sources_mem ms ([], []) v.metadata.source).mpr
        (Or.inr ⟨v, hv, hvt, rfl⟩)
    rw [hs] at hmem
    exact absurd hmem (List.not_mem_nil _)
  have : extractContext ms = ([], []) := foldl_extractStep_id ms ([], []) hall
  rw [this] at hp
  exact hp rfl

/-- The successful path of answer_query: when embedding, index query and
the language call all succeed and the matches yield nonempty context, the
result is the trimmed LLM answer with the Sources line appended and the
sorted source set. -/
theorem answer_query_success_eq (embed : String → Except String Emb)
    (iq : Emb → String → Except String (List Vec))
    (llm : String → String → Except String String)
    (q role : String) (emb : Emb) (ms : List Vec) (content : String)
    (he : embed q = .ok emb) (hi : iq emb role = .ok ms)
    (hms : ms ≠ []) (hparts : (extractContext ms).1 ≠ [])
    (hsrc : (extractContext ms).2 ≠ [])
    (hllm : llm q (String.intercalate "\n\n" (extractContext ms).1) = .ok content) :
    answer_query embed iq llm q role
      = ⟨pyStrip content ++ "\n\n**Sources:** "
          ++ String.intercalate ", "
              (List.insertionSort (fun a b => a ≤ b) (extractContext ms).2),
         List.insertionSort (fun a b => a ≤ b) (extractContext ms).2⟩ := by
  unfold answer_query answerQueryEx
  rw [he]
  simp [Bind.bind, Except.bind, hi, Pure.pure, Except.pure,
        List.isEmpty_iff, hms, hparts, hsrc, hllm]

/-- C4: for a non-empty query and a role whose partition yields no index
matches, or whose matched passages all have empty text after trimming, the
answer operation returns exactly the fixed fallback answer with an empty
sources list. -/
theorem C4_fallback_on_no_usable_matches (score : Emb → Emb → Int)
    (idx : NamespacedIndex) (embed : String → Except String Emb)
    (llm : String → String → Except String String)
    (q role : String) (e : Emb)
    (hq : q ≠ "") (he : embed q = .ok e)
    (h : idx role = [] ∨ ∀ v ∈ idx role, pyStrip v.metadata.text = "") :
    askWithIndex score idx embed llm q role = ⟨fallbackAnswer, []⟩ := by
  unfold askWithIndex answer_query answerQueryEx
  rw [he]
  rcases h with h1 | h2
  · have hq5 : queryNS score idx role e 5 = [] := by
      unfold queryNS
      rw [h1]
      simp [List.insertionSort]
    simp [Bind.bind, Except.bind, Pure.pure, Except.pure, hq5]
  · have hall : ∀ m ∈ queryNS score idx role e 5, pyStrip m.metadata.text = "" :=
      fun m hm => h2 m (mem_of_mem_queryNS score idx role e 5 m hm)
    have hext : extractContext (queryNS score idx role e 5) = ([], []) :=
      foldl_extractStep_id _ ([], []) hall
    by_cases hq5 : queryNS score idx role e 5 = []
    · simp [Bind.bind, Except.bind, Pure.pure, Except.pure, hq5]
    · simp [Bind.bind, Except.bind, Pure.pure, Except.pure, List.isEmpty_iff,
            hq5, hext]

/-- Witness for C4 at concrete input: a Team Lead query against an index
populated only in the Employee partition returns the fallback answer with
no sources. -/
theorem C4_fallback_on_no_usable_matches_witness :
    askWithIndex scoreZero idxB1 (fun _ => .ok [0]) (fun _ _ => .ok "whatever")
        "How many leave days?" "Team Lead"
      = ⟨fallbackAnswer, []⟩ :=
  C4_fallback_on_no_usable_matches scoreZero idxB1 (fun _ => .ok [0])
    (fun _ _ => .ok "whatever") "How many leave days?" "Team Lead" [0]
    (by decide) rfl (Or.inl rfl)

/-- C5: a failure of the query embedding, of the index query, or of the
language-capability call is not raised to the caller: the answer operation
returns exactly the fixed generic failure answer with an empty sources
list. -/
theorem C5_failures_become_generic_answer (embed : String → Except String Emb)
    (iq : Emb → String → Except String (List Vec))
    (llm : String → String → Except String String)
    (q role e1 e2 e3 : String) (emb : Emb) (ms : List Vec)
    (h : embed q = .error e1
      ∨ (embed q = .ok emb ∧ iq emb role = .error e2)
      ∨ (embed q = .ok emb ∧ iq emb role = .ok ms ∧ ms ≠ []
         ∧ (extractContext ms).1 ≠ []
         ∧ llm q (String.intercalate "\n\n" (extractContext ms).1) = .error e3)) :
    answer_query embed iq llm q role = ⟨genericFailureAnswer, []⟩ := by
  unfold answer_query answerQueryEx
  rcases h with h1 | ⟨h1, h2⟩ | ⟨h1, h2, h3, h4, h5⟩
  · rw [h1]
    simp [Bind.bind, Except.bind]
  · rw [h1]
    simp [Bind.bind, Except.bind, h2]
  · rw [h1]
    simp [Bind.bind, Except.bind, Pure.pure, Except.pure, List.isEmpty_iff,
          h2, h3, h4, h5]

/-- Witness for C5 at concrete input: a failing embedding call yields the
generic failure answer with no sources. -/
theorem C5_failures_become_generic_answer_witness :
    answer_query (fun _ => .error "embedding down") (fun _ _ => .ok [vecB1])
        (fun _ _ => .ok "irrelevant") "q" "Employee"
      = ⟨genericFailureAnswer, []⟩ :=
  C5_failures_become_generic_answer (fun _ => .error "embedding down")
    (fun _ _ => .ok [vecB1]) (fun _ _ => .ok "irrelevant") "q" "Employee"
    "embedding down" "e2" "e3" [0] [] (Or.inl rfl)

/-- C6: on the successful path the returned sources list is the sorted
deduplicated list of the distinct source names of the matched passages
with nonempty trimmed text, each name appearing exactly once however often
it was matched, and the answer text carries a Sources line listing those
names in sorted order. -/
theorem C6_sources_deduplicated_sorted (embed : String → Except String Emb)
    (iq : Emb → String → Except String (List Vec))
    (llm : String → String → Except String String)
    (q role : String) (emb : Emb) (ms : List Vec) (content : String)
    (he : embed q = .ok emb) (hi : iq emb role = .ok ms)
    (hparts : (extractContext ms).1 ≠ [])
    (hllm : llm q (String.intercalate "\n\n" (extractContext ms).1) = .ok content) :
    (answer_query embed iq llm q role).sources
        = List.insertionSort (fun a b => a ≤ b) (extractContext ms).2
    ∧ (answer_query embed iq llm q role).sources.Nodup
    ∧ List.Sorted (fun a b : String => a ≤ b) (answer_query embed iq llm q role).sources
    ∧ (∀ s, s ∈ (answer_query embed iq llm q role).sources
          ↔ ∃ v, v ∈ ms ∧ pyStrip v.metadata.text ≠ "" ∧ v.metadata.source = s)
    ∧ (answer_query embed iq llm q role).answer
        = pyStrip content ++ "\n\n**Sources:** "
            ++ String.intercalate ", " (answer_query embed iq llm q role).sources := by
  have hms : ms ≠ [] := by
    intro hnil
    rw [hnil] at hparts
    exact hparts rfl
  have hsrc : (extractContext ms).2 ≠ [] := extractContext_sources_ne_nil ms hparts
  have hred := answer_query_success_eq embed iq llm q role emb ms content
    he hi hms hparts hsrc hllm
  rw [hred]
  refine ⟨rfl, ?_, ?_, ?_, rfl⟩
  · exact (List.perm_insertionSort _ _).nodup_iff.mpr
      (foldl_extractStep_sources_nodup ms ([], []) List.nodup_nil)
  · exact List.sorted_insertionSort _ _
  · intro s
    rw [List.mem_insertionSort]
    simpa using foldl_extractStep_sources_mem ms ([], []) s

/-- Witness for C6 at concrete input: two matches of the same source name
with nonempty text yield that name exactly once, and the Sources line is
appended to the trimmed LLM answer. -/
theorem C6_sources_deduplicated_sorted_witness :
    (answer_query (fun _ => .ok [0]) (fun _ _ => .ok [vecB1, vecB1])
        (fun _ _ => .ok "You get 20 days.") "q" "Employee").sources
        = List.insertionSort (fun a b => a ≤ b) (extractContext [vecB1, vecB1]).2
    ∧ (answer_query (fun _ => .ok [0]) (fun _ _ => .ok [vecB1, vecB1])
        (fun _ _ => .ok "You get 20 days.") "q" "Employee").sources.Nodup
    ∧ List.Sorted (fun a b : String => a ≤ b)
        (answer_query (fun _ => .ok [0]) (fun _ _ => .ok [vecB1, vecB1])
          (fun _ _ => .ok "You get 20 days.") "q" "Employee").sources
    ∧ (∀ s, s ∈ (answer_query (fun _ => .ok [0]) (fun _ _ => .ok [vecB1, vecB1])
          (fun _ _ => .ok "You get 20 days.") "q" "Employee").sources
          ↔ ∃ v, v ∈ [vecB1, vecB1] ∧ pyStrip v.metadata.text ≠ "" ∧ v.metadata.source = s)
    ∧ (answer_query (fun _ => .ok [0]) (fun _ _ => .ok [vecB1, vecB1])
          (fun _ _ => .ok "You get 20 days.") "q" "Employee").answer
        = pyStrip "You get 20 days." ++ "\n\n**Sources:** "
            ++ String.intercalate ", "
                (answer_query (fun _ => .ok [0]) (fun _ _ => .ok [vecB1, vecB1])
                  (fun _ _ => .ok "You get 20 days.") "q" "Employee").sources :=
  C6_sources_deduplicated_sorted (fun _ => .ok [0]) (fun _ _ => .ok [vecB1, vecB1])
    (fun _ _ => .ok "You get 20 days.") "q" "Employee" [0] [vecB1, vecB1]
    "You get 20 days." rfl rfl (by decide) rfl

/-- C7: per-file failure isolation. For a valid role the ingestion call
never raises, whatever the per-file operations do: it returns the fold of
the per-file loop body over all files; after any file (in particular a
failing one) processing continues with every remaining file; and a file
whose load fails leaves the index untouched. -/
theorem C7_per_file_failure_isolation (ops : FileOps) (role doc_id : String)
    (st st' : IngestState) (files rest : List UploadedFile) (f : UploadedFile)
    (hrole : role ∈ valid_roles) :
    load_vectorstore_async ops role doc_id files st
      = .ok (files.foldl (processFile ops role doc_id) st)
    ∧ load_vectorstore_async ops role doc_id (f :: rest) st'
      = .ok (rest.foldl (processFile ops role doc_id)
          (processFile ops role doc_id st' f))
    ∧ (∀ st2 g err, ops.load g = .error err →
        (processFile ops role doc_id st2 g).index = st2.index) := by
  refine ⟨?_, ?_, ?_⟩
  · simp [load_vectorstore_async, hrole]
  · simp [load_vectorstore_async, hrole]
  · intro st2 g err herr
    simp [processFile, herr]

/-- Witness for C7 at concrete input: with a loader that fails on every
file, the two-file ingestion call still returns .ok of the full fold, the
second file is processed after the first failing one, and the failing
first file leaves the index unchanged. -/
theorem C7_per_file_failure_isolation_witness :
    load_vectorstore_async opsFail "Employee" "B" [fileA, fileB] ⟨emptyIndex, []⟩
      = .ok ([fileA, fileB].foldl (processFile opsFail "Employee" "B") ⟨emptyIndex, []⟩)
    ∧ load_vectorstore_async opsFail "Employee" "B" (fileA :: [fileB]) ⟨emptyIndex, []⟩
      = .ok ([fileB].foldl (processFile opsFail "Employee" "B")
          (processFile opsFail "Employee" "B" ⟨emptyIndex, []⟩ fileA))
    ∧ (∀ st2 g err, opsFail.load g = .error err →
        (processFile opsFail "Employee" "B" st2 g).index = st2.index) :=
  C7_per_file_failure_isolation opsFail "Employee" "B" ⟨emptyIndex, []⟩
    ⟨emptyIndex, []⟩ [fileA, fileB] [fileB] fileA (by decide)

/-- Removing a path right after inserting it leaves exactly the original
storage without that path. -/
theorem removePath_insertPath (l : List String) (p : String) :
    removePath (insertPath l p) p = l.filter (fun q => q != p) := by
  unfold insertPath removePath
  by_cases h : p ∈ l
  · rw [if_pos (List.elem_iff.mpr h)]
  · rw [if_neg (by simpa using h)]
    simp

/-- The per-file loop body always ends with the transient file removed:
whatever branch is taken, the resulting storage is the input storage
without the file's save path. -/
theorem processFile_storage (ops : FileOps) (role doc_id : String)
    (st : IngestState) (f : UploadedFile) :
    (processFile ops role doc_id st f).storage
      = st.storage.filter (fun q => q != savePath f) := by
  cases hl : ops.load f with
  | error e => simp [processFile, hl, removePath_insertPath]
  | ok documents =>
    by_cases hd : documents.isEmpty = true
    · simp [processFile, hl, hd, removePath_insertPath]
    · by_cases hcks : (splitDocuments documents).isEmpty = true
      · simp [processFile, hl, hd, hcks, removePath_insertPath]
      · cases he : embedAll ops.embed ((splitDocuments documents).map (fun c => c.text)) with
        | error e2 => simp [processFile, hl, hd, hcks, he, removePath_insertPath]
        | ok embeddings => simp [processFile, hl, hd, hcks, he, removePath_insertPath]

/-- Folding the per-file loop body over any file list keeps an empty
transient storage empty. -/
theorem foldl_processFile_storage_nil (ops : FileOps) (role doc_id : String)
    (files : List UploadedFile) :
    ∀ st : IngestState, st.storage = [] →
      (files.foldl (processFile ops role doc_id) st).storage = [] := by
  induction files with
  | nil => intro st h; exact h
  | cons f fs ih =>
    intro st h
    rw [List.foldl_cons]
    apply ih
    rw [processFile_storage, h]
    rfl

/-- C9: transient storage cleanup. Each file's saved copy is removed
before the loop moves to the next file, on the success path and on every
failure path (the resulting storage is the incoming storage without that
file's path, unconditionally), and an ingestion call that starts with
empty transient storage ends with empty transient storage. -/
theorem C9_transient_storage_cleanup (ops : FileOps) (role doc_id : String)
    (files : List UploadedFile) (idx : NamespacedIndex) (out : IngestState)
    (st : IngestState) (f : UploadedFile)
    (hrun : load_vectorstore_async ops role doc_id files ⟨idx, []⟩ = .ok out) :
    (processFile ops role doc_id st f).storage
      = st.storage.filter (fun q => q != savePath f)
    ∧ out.storage = [] := by
  refine ⟨processFile_storage ops role doc_id st f, ?_⟩
  unfold load_vectorstore_async at hrun
  by_cases hc : valid_roles.contains role = true
  · rw [if_pos hc] at hrun
    have h2 := Except.ok.inj hrun
    rw [← h2]
    exact foldl_processFile_storage_nil ops role doc_id files ⟨idx, []⟩ rfl
  · rw [if_neg hc] at hrun
    simp at hrun

/-- Witness for C9 at concrete input: a failing file's saved copy is
removed while an unrelated stored path survives, and a one-file ingestion
call starting from empty storage ends with empty storage. -/
theorem C9_transient_storage_cleanup_witness :
    (processFile opsFail "Employee" "B"
        ⟨emptyIndex, ["./upload_docs/z.txt"]⟩ fileA).storage
      = ["./upload_docs/z.txt"].filter (fun q => q != savePath fileA)
    ∧ (processFile opsFail "Employee" "B" ⟨emptyIndex, []⟩ fileA).storage = [] :=
  C9_transient_storage_cleanup opsFail "Employee" "B" [fileA] emptyIndex
    (processFile opsFail "Employee" "B" ⟨emptyIndex, []⟩ fileA)
    ⟨emptyIndex, ["./upload_docs/z.txt"]⟩ fileA rfl

/-- When the fuel bounds the length, a nonempty text's chunk list starts
with its first 500 characters. -/
theorem chunkCharsAux_cons (fuel : Nat) (t : List Char) (ht : t ≠ [])
    (hf : t.length ≤ fuel) :
    ∃ rest, chunkCharsAux fuel t = t.take 500 :: rest := by
  cases fuel with
  | zero => exact absurd (List.length_eq_zero.mp (Nat.le_zero.mp hf)) ht
  | succ fuel =>
    rw [chunkCharsAux]
    rw [if_neg (by simpa [List.isEmpty_iff] using ht)]
    by_cases h5 : t.length ≤ 500
    · exact ⟨[], by rw [if_pos h5, List.take_of_length_le h5]⟩
    · exact ⟨_, by rw [if_neg h5]⟩

/-- When the fuel bounds the length, every chunk is at most 500
characters long. -/
theorem chunkCharsAux_length_le (fuel : Nat) :
    ∀ s : List Char, s.length ≤ fuel →
      ∀ c ∈ chunkCharsAux fuel s, c.length ≤ 500 := by
  induction fuel with
  | zero =>
    intro s hs c hc
    have hnil : s = [] := List.length_eq_zero.mp (Nat.le_zero.mp hs)
    subst hnil
    simp [chunkCharsAux] at hc
  | succ fuel ih =>
    intro s hs c hc
    rw [chunkCharsAux] at hc
    by_cases hne : s.isEmpty = true
    · rw [if_pos hne] at hc
      exact absurd hc (List.not_mem_nil c)
    · rw [if_neg hne] at hc
      by_cases h5 : s.length ≤ 500
      · rw [if_pos h5] at hc
        rw [List.mem_singleton.mp hc]
        exact h5
      · rw [if_neg h5] at hc
        rcases List.mem_cons.mp hc with rfl | hc2
        · rw [List.length_take]
          exact Nat.min_le_left _ _
        · refine ih (s.drop 400) ?_ c hc2
          rw [List.length_drop]
          omega

/-- When the fuel bounds the length, consecutive chunks overlap in exactly
100 characters: the last 100 characters of each chunk are the first 100
characters of the next. -/
theorem chunkCharsAux_chain (fuel : Nat) :
    ∀ s : List Char, s.length ≤ fuel →
      List.Chain' (fun a b => a.drop 400 = b.take 100 ∧ (a.drop 400).length = 100)
        (chunkCharsAux fuel s) := by
  induction fuel with
  | zero =>
    intro s hs
    have hnil : s = [] := List.length_eq_zero.mp (Nat.le_zero.mp hs)
    subst hnil
    simp [chunkCharsAux]
  | succ fuel ih =>
    intro s hs
    rw [chunkCharsAux]
    by_cases hne : s.isEmpty = true
    · rw [if_pos hne]
      exact List.chain'_nil
    · rw [if_neg hne]
      by_cases h5 : s.length ≤ 500
      · rw [if_pos h5]
        exact List.chain'_singleton _
      · rw [if_neg h5]
        push_neg at h5
        have hd_ne : s.drop 400 ≠ [] := by
          intro hnil
          have := List.length_drop 400 s
          rw [hnil] at this
          simp at this
          omega
        have hd_le : (s.drop 400).length ≤ fuel := by
          rw [List.length_drop]
          omega
        obtain ⟨rest, hrest⟩ := chunkCharsAux_cons fuel (s.drop 400) hd_ne hd_le
        rw [hrest]
        refine List.chain'_cons.mpr ⟨⟨?_, ?_⟩, ?_⟩
        · rw [List.drop_take, List.take_take]
          norm_num
        · rw [List.drop_take, List.length_take, List.length_drop]
          omega
        · rw [← hrest]
          exact ih (s.drop 400) hd_le

/-- C8: chunking any text with the configured maximum size 500 and overlap
100 produces chunks of length at most 500, and every consecutive pair of
chunks overlaps in exactly 100 characters (the last 100 characters of one
chunk are the first 100 of the next), the last pair included. -/
theorem C8_chunk_size_and_overlap (s : List Char) :
    (∀ c ∈ chunkChars s, c.length ≤ 500)
    ∧ List.Chain' (fun a b => a.drop 400 = b.take 100 ∧ (a.drop 400).length = 100)
        (chunkChars s) :=
  ⟨chunkCharsAux_length_le s.length s le_rfl, chunkCharsAux_chain s.length s le_rfl⟩

/-- Witness for C8 at a concrete 900-character text: both chunk-size and
exact-overlap properties hold of its chunk list. -/
theorem C8_chunk_size_and_overlap_witness :
    (∀ c ∈ chunkChars (List.replicate 900 'a'), c.length ≤ 500)
    ∧ List.Chain' (fun a b => a.drop 400 = b.take 100 ∧ (a.drop 400).length = 100)
        (chunkChars (List.replicate 900 'a')) :=
  C8_chunk_size_and_overlap (List.replicate 900 'a')

/-- Witness for C10 at concrete input: an Employee caller is rejected with
403 and the state is unchanged. -/
theorem C10_upload_rejected_without_hr_manager_witness :
    upload_hr_documents opsW ⟨"bob", "Employee"⟩ [fileA] "Employee"
        ⟨⟨emptyIndex, []⟩, ["u1"]⟩
      = (.error ⟨403, "Only HR Manager can upload documents"⟩,
         ⟨⟨emptyIndex, []⟩, ["u1"]⟩) :=
  C10_upload_rejected_without_hr_manager opsW ⟨"bob", "Employee"⟩ [fileA] "Employee"
    ⟨⟨emptyIndex, []⟩, ["u1"]⟩ (by decide)

end HRRag
